import Mathlib

/-!
Verification of the rope-physics core of the Night-mode repository.

The TypeScript source keeps a rope as a list of mutable `Point` records and a
list of `Stick` constraints whose `p1`/`p2` fields alias the point objects
`points[i]` and `points[i+1]`.  The shallow embedding below replaces the object
aliasing by indices into the point list, so every mutation becomes an explicit
`List.set` / re-mapping of the point list.  JavaScript numbers are modelled as
real numbers; `Math.sqrt` / `Math.hypot` become `Real.sqrt`.
-/

noncomputable section

open Classical

/-- A simulated particle: current position, previous position, pinned flag
(`types.ts`, interface `Point`). -/
structure Point where
  x : ℝ
  y : ℝ
  oldx : ℝ
  oldy : ℝ
  pinned : Bool


instance : Inhabited Point := ⟨⟨0, 0, 0, 0, false⟩⟩

/-- A distance constraint between the points at indices `p1` and `p2`
(`types.ts`, interface `Stick`; the source stores object references, the
embedding stores the indices those references have in `points`). -/
structure Stick where
  p1 : ℕ
  p2 : ℕ
  length : ℝ


instance : Inhabited Stick := ⟨⟨0, 0, 0⟩⟩

/-- The rope system (`types.ts`, interface `RopeSystem`). -/
structure RopeSystem where
  points : List Point
  sticks : List Stick
  iterations : ℕ

/-- Gravity constant from the physics module. -/
def GRAVITY : ℝ := 0.5

/-- Free-flight friction constant from the physics module. -/
def FRICTION : ℝ := 0.99

/-- Ground friction constant from the physics module. -/
def GROUND_FRICTION : ℝ := 0.5

/-- Wall bounce constant from the physics module. -/
def WALL_BOUNCE : ℝ := 0.5

/-- `Math.hypot` on two arguments. -/
def hypot (a b : ℝ) : ℝ := Real.sqrt (a * a + b * b)

/-- `createRope(startX, startY, segments, segmentLength)`: `segments` points
stacked vertically at `segmentLength` spacing, point 0 pinned, a stick of
length `segmentLength` between each pair of consecutive points, 600 solver
iterations. -/
def createRope (startX startY : ℝ) (segments : ℕ) (segmentLength : ℝ) : RopeSystem :=
  { points := (List.range segments).map fun (i : ℕ) =>
      { x := startX
        y := startY + (i : ℝ) * segmentLength
        oldx := startX
        oldy := startY + (i : ℝ) * segmentLength
        pinned := i == 0 }
    sticks := (List.range (segments - 1)).map fun i =>
      { p1 := i, p2 := i + 1, length := segmentLength }
    iterations := 600 }

/-- The position-Verlet update of one unpinned point (the first half of the
per-point loop body of `updatePhysics`): damped implicit velocity, previous
position saved, gravity added. -/
def verletStep (p : Point) : Point :=
  { x := p.x + (p.x - p.oldx) * FRICTION
    y := p.y + (p.y - p.oldy) * FRICTION + GRAVITY
    oldx := p.x
    oldy := p.y
    pinned := p.pinned }

/-- Floor collision of `updatePhysics`: clamp `y` to `height - r`, apply ground
friction to the implicit horizontal velocity by rewriting `oldx`, cancel the
vertical velocity by setting `oldy` to the clamped `y`. -/
def floorCollide (height r : ℝ) (p : Point) : Point :=
  if p.y > height - r then
    { p with
      y := height - r
      oldx := p.x - (p.x - p.oldx) * GROUND_FRICTION
      oldy := height - r }
  else p

/-- Wall collision of `updatePhysics`: clamp `x` to the nearest wall and
reflect the implicit horizontal velocity, scaled by `WALL_BOUNCE`, by
rewriting `oldx`. -/
def wallCollide (width r : ℝ) (p : Point) : Point :=
  if p.x < r then
    { p with x := r, oldx := r + (r - p.oldx) * WALL_BOUNCE }
  else if p.x > width - r then
    { p with x := width - r, oldx := (width - r) + ((width - r) - p.oldx) * WALL_BOUNCE }
  else p

/-- Full per-point integration step of `updatePhysics`: pinned points are
skipped entirely; unpinned points get the Verlet update followed by floor and
wall collision with effective radius `r`. -/
def integratePoint (width height r : ℝ) (p : Point) : Point :=
  if p.pinned then p else wallCollide width r (floorCollide height r (verletStep p))

/-- The integration phase of `updatePhysics`: every point is updated in place;
the effective collision radius is `bulbRadius` for the last point and `0` for
all the others. -/
def integrate (pts : List Point) (width height bulbRadius : ℝ) : List Point :=
  (List.range pts.length).map fun i =>
    integratePoint width height (if i = pts.length - 1 then bulbRadius else 0)
      (pts.getD i default)

/-- `resolveStick`: one relaxation of a single stick.  A zero distance is
skipped; otherwise the correction is shared between the endpoints, taken fully
by the free endpoint when exactly one endpoint is pinned, and not applied at
all when both endpoints are pinned. -/
def resolveStick (pts : List Point) (stick : Stick) : List Point :=
  let q1 := pts.getD stick.p1 default
  let q2 := pts.getD stick.p2 default
  let dx := q2.x - q1.x
  let dy := q2.y - q1.y
  let distance := Real.sqrt (dx * dx + dy * dy)
  if distance = 0 then pts
  else
    let difference := stick.length - distance
    let percent := difference / distance / 2
    let offsetX := dx * percent
    let offsetY := dy * percent
    if q1.pinned = true ∧ q2.pinned = false then
      pts.set stick.p2 { q2 with x := q2.x + offsetX * 2, y := q2.y + offsetY * 2 }
    else if q1.pinned = false ∧ q2.pinned = true then
      pts.set stick.p1 { q1 with x := q1.x - offsetX * 2, y := q1.y - offsetY * 2 }
    else if q1.pinned = false ∧ q2.pinned = false then
      (pts.set stick.p1 { q1 with x := q1.x - offsetX, y := q1.y - offsetY }).set stick.p2
        { q2 with x := q2.x + offsetX, y := q2.y + offsetY }
    else pts

/-- One solver iteration of `updatePhysics`: a forward pass over the sticks
followed by a backward pass. -/
def relaxOnce (sticks : List Stick) (pts : List Point) : List Point :=
  sticks.reverse.foldl resolveStick (sticks.foldl resolveStick pts)

/-- `n` solver iterations. -/
def relaxIter (sticks : List Stick) : ℕ → List Point → List Point
  | 0, pts => pts
  | n + 1, pts => relaxIter sticks n (relaxOnce sticks pts)

/-- `updatePhysics(system, width, height, bulbRadius)`: Verlet integration with
collision for every point, then `iterations` alternating forward/backward
relaxation passes over the sticks. -/
def updatePhysics (system : RopeSystem) (width height : ℝ) (bulbRadius : ℝ := 0) :
    RopeSystem :=
  { system with
    points :=
      relaxIter system.sticks system.iterations
        (integrate system.points width height bulbRadius) }

/- Helper lemmas about list access. -/

theorem getD_range_map {α : Type _} (f : ℕ → α) (n i : ℕ) (d : α) (h : i < n) :
    ((List.range n).map f).getD i d = f i := by
  rw [List.getD_eq_getElem?_getD, List.getElem?_map, List.getElem?_range h]
  rfl

theorem length_range_map {α : Type _} (f : ℕ → α) (n : ℕ) :
    ((List.range n).map f).length = n := by
  rw [List.length_map, List.length_range]

theorem getD_set_self (l : List Point) (i : ℕ) (a : Point) (h : i < l.length) :
    (l.set i a).getD i default = a := by
  rw [List.getD_eq_getElem?_getD, List.getElem?_set_self h]
  rfl

theorem getD_set_ne (l : List Point) (i j : ℕ) (a : Point) (hij : i ≠ j) :
    (l.set i a).getD j default = l.getD j default := by
  rw [List.getD_eq_getElem?_getD, List.getElem?_set_ne hij, List.getD_eq_getElem?_getD]

/-- Drag state of the interaction layer (`dragRef` in the scene component). -/
structure DragState where
  isDragging : Bool
  pointIndex : Option ℕ

/-- Snag threshold: a point closer than this to the peg is pinned to it. -/
def SNAG_THRESHOLD : ℝ := 25

/-- Securing threshold used on pointer-up. -/
def SECURE_THRESHOLD : ℝ := 40

/-- Grab radius used on pointer-down. -/
def GRAB_RADIUS : ℝ := 60

/-- The snag loop body applied to every point: points other than the last one
that are not yet pinned and lie within `SNAG_THRESHOLD` of the peg are pinned
and teleported to the peg with zero implicit velocity. -/
def snagPoints (snagX snagY : ℝ) (pts : List Point) : List Point :=
  (List.range pts.length).map fun i =>
    let p := pts.getD i default
    if i + 1 < pts.length ∧ p.pinned = false ∧
        hypot (p.x - snagX) (p.y - snagY) < SNAG_THRESHOLD then
      { x := snagX, y := snagY, oldx := snagX, oldy := snagY, pinned := true }
    else p

/-- Step 1 of the per-frame physics update in the scene component: snagging
runs only when a peg is mounted and a drag is active. -/
def snagStep (mount : Option (ℝ × ℝ)) (drag : DragState) (pts : List Point) : List Point :=
  match mount with
  | some (mx, my) => if drag.isDragging = true then snagPoints mx my pts else pts
  | none => pts

/-- The anchor search of the winch logic: scan indices from `start` down to 1
for a pinned point, returning 0 when none is found (index 0 itself needs no
check because 0 is also the default). -/
def findPinnedFrom (pts : List Point) : ℕ → ℕ
  | 0 => 0
  | i + 1 => if (pts.getD (i + 1) default).pinned = true then i + 1 else findPinnedFrom pts i

/-- Index of the last pinned point at index at most `points.length - 2`,
defaulting to 0 (the anchor of the winch logic). -/
def anchorIndexOf (pts : List Point) : ℕ := findPinnedFrom pts (pts.length - 2)

/-- Step 2 of the per-frame physics update in the scene component: the winch.
While a drag with a valid point index is active, the distance from the anchor
to the pointer is split uniformly over the active segments, every stick from
the anchor on gets the new length, and every point past the anchor is
teleported onto the anchor-to-pointer line with zero implicit velocity; the
dragged point is pinned.  When there are no active segments nothing happens. -/
def winchSystem (mouseX mouseY : ℝ) (drag : DragState) (sys : RopeSystem) : RopeSystem :=
  if drag.isDragging = true ∧ drag.pointIndex ≠ none then
    match drag.pointIndex with
    | none => sys
    | some dragIdx =>
      let a := anchorIndexOf sys.points
      let anchor := sys.points.getD a default
      let dx := mouseX - anchor.x
      let dy := mouseY - anchor.y
      let distToAnchor := Real.sqrt (dx * dx + dy * dy)
      let activeSegments := (sys.points.length - 1) - a
      if 0 < activeSegments then
        let newSegmentLength := distToAnchor / (activeSegments : ℝ)
        { sys with
          sticks := (List.range sys.sticks.length).map fun i =>
            let s := sys.sticks.getD i default
            if a ≤ i then { s with length := newSegmentLength } else s
          points := (List.range sys.points.length).map fun i =>
            let p := sys.points.getD i default
            if a < i then
              let t := ((i - a : ℕ) : ℝ) / (activeSegments : ℝ)
              { x := anchor.x + dx * t
                y := anchor.y + dy * t
                oldx := anchor.x + dx * t
                oldy := anchor.y + dy * t
                pinned := if i = dragIdx then true else p.pinned }
            else p }
      else sys
  else sys

/-- `handlePointerDown` in drag mode: if the pointer lands within
`GRAB_RADIUS` of the end point, that point is pinned and a drag on it starts. -/
def pinOnGrab (x y : ℝ) (pts : List Point) (drag : DragState) : List Point × DragState :=
  let lastIdx := pts.length - 1
  let endPoint := pts.getD lastIdx default
  if hypot (x - endPoint.x) (y - endPoint.y) < GRAB_RADIUS then
    (pts.set lastIdx { endPoint with pinned := true }, ⟨true, some lastIdx⟩)
  else (pts, drag)

/-- `handlePointerUp`: if a drag is active, the end point either stays pinned
at the peg (when within `SECURE_THRESHOLD` of it) or is unpinned; dragging
always returns to idle. -/
def handlePointerUp (mount : Option (ℝ × ℝ)) (drag : DragState) (pts : List Point) :
    List Point × DragState :=
  let pts' :=
    if drag.isDragging = true ∧ drag.pointIndex ≠ none then
      let lastIdx := pts.length - 1
      let lastPt := pts.getD lastIdx default
      match mount with
      | some (snagX, snagY) =>
        if hypot (lastPt.x - snagX) (lastPt.y - snagY) < SECURE_THRESHOLD then
          pts.set lastIdx { lastPt with pinned := true, x := snagX, y := snagY }
        else pts.set lastIdx { lastPt with pinned := false }
      | none => pts.set lastIdx { lastPt with pinned := false }
    else pts
  (pts', ⟨false, none⟩)

/-- States of the rope system reachable from a start state by any sequence of
the repository's operations: physics steps, winching, snagging, pin-on-grab
and release, with arbitrary per-step parameters. -/
inductive Reachable : RopeSystem → RopeSystem → Prop where
  | refl (s : RopeSystem) : Reachable s s
  | step_update (a b : RopeSystem) (w h r : ℝ) :
      Reachable a b → Reachable a (updatePhysics b w h r)
  | step_winch (a b : RopeSystem) (mx my : ℝ) (drag : DragState) :
      Reachable a b → Reachable a (winchSystem mx my drag b)
  | step_snag (a b : RopeSystem) (mount : Option (ℝ × ℝ)) (drag : DragState) :
      Reachable a b → Reachable a { b with points := snagStep mount drag b.points }
  | step_grab (a b : RopeSystem) (mx my : ℝ) (drag : DragState) :
      Reachable a b → Reachable a { b with points := (pinOnGrab mx my b.points drag).1 }
  | step_release (a b : RopeSystem) (mount : Option (ℝ × ℝ)) (drag : DragState) :
      Reachable a b → Reachable a { b with points := (handlePointerUp mount drag b.points).1 }

/- Preservation of pinned entries through the solver. -/

theorem resolveStick_pinned_entry (pts : List Point) (st : Stick) (i : ℕ) (p : Point)
    (h : pts[i]? = some p) (hp : p.pinned = true) :
    (resolveStick pts st)[i]? = pts[i]? := by
  have hgetD : pts.getD i default = p := by
    rw [List.getD_eq_getElem?_getD, h]; rfl
  unfold resolveStick
  dsimp only
  split
  · rfl
  · split
    · next hcond =>
      refine List.getElem?_set_ne fun he => ?_
      rw [he, hgetD, hp] at hcond
      exact Bool.noConfusion hcond.2
    · split
      · next hcond =>
        refine List.getElem?_set_ne fun he => ?_
        rw [he, hgetD, hp] at hcond
        exact Bool.noConfusion hcond.1
      · split
        · next hcond =>
          rw [List.getElem?_set_ne fun he => by
                rw [he, hgetD, hp] at hcond; exact Bool.noConfusion hcond.2,
              List.getElem?_set_ne fun he => by
                rw [he, hgetD, hp] at hcond; exact Bool.noConfusion hcond.1]
        · rfl

theorem foldl_resolveStick_pinned_entry (sticks : List Stick) (pts : List Point) (i : ℕ)
    (p : Point) (h : pts[i]? = some p) (hp : p.pinned = true) :
    (sticks.foldl resolveStick pts)[i]? = pts[i]? := by
  induction sticks generalizing pts with
  | nil => rfl
  | cons s rest ih =>
    rw [List.foldl_cons]
    have hstep := resolveStick_pinned_entry pts s i p h hp
    rw [ih (resolveStick pts s) (by rw [hstep]; exact h), hstep]

theorem relaxOnce_pinned_entry (sticks : List Stick) (pts : List Point) (i : ℕ) (p : Point)
    (h : pts[i]? = some p) (hp : p.pinned = true) :
    (relaxOnce sticks pts)[i]? = pts[i]? := by
  unfold relaxOnce
  have h1 := foldl_resolveStick_pinned_entry sticks pts i p h hp
  rw [foldl_resolveStick_pinned_entry sticks.reverse _ i p (by rw [h1]; exact h) hp, h1]

theorem relaxIter_pinned_entry (sticks : List Stick) (n : ℕ) (pts : List Point) (i : ℕ)
    (p : Point) (h : pts[i]? = some p) (hp : p.pinned = true) :
    (relaxIter sticks n pts)[i]? = pts[i]? := by
  induction n generalizing pts with
  | zero => rfl
  | succ n ih =>
    have h1 := relaxOnce_pinned_entry sticks pts i p h hp
    rw [relaxIter, ih (relaxOnce sticks pts) (by rw [h1]; exact h), h1]

theorem integrate_pinned_entry (pts : List Point) (w h r : ℝ) (i : ℕ) (p : Point)
    (hget : pts[i]? = some p) (hp : p.pinned = true) :
    (integrate pts w h r)[i]? = pts[i]? := by
  have hi : i < pts.length := by
    by_contra hcon
    rw [List.getElem?_eq_none (Nat.le_of_not_lt hcon)] at hget
    exact Option.noConfusion hget
  have hgetD : pts.getD i default = p := by
    rw [List.getD_eq_getElem?_getD, hget]; rfl
  unfold integrate
  rw [List.getElem?_map, List.getElem?_range hi, Option.map_some', hget, hgetD]
  unfold integratePoint
  rw [hp]
  rfl

/-- C1: one call to `updatePhysics`, for any bounds and end radius, leaves
every pinned point of the system entirely unchanged (all of `x`, `y`, `oldx`,
`oldy`, `pinned`): the integrator skips pinned points and `resolveStick` never
corrects a pinned endpoint. -/
theorem c1_updatePhysics_fixes_pinned (sys : RopeSystem) (w h r : ℝ) (i : ℕ)
    (hi : i < sys.points.length)
    (hp : (sys.points.getD i default).pinned = true) :
    (updatePhysics sys w h r).points.getD i default = sys.points.getD i default := by
  have hget : sys.points[i]? = some (sys.points.getD i default) := by
    rw [List.getD_eq_getElem?_getD, List.getElem?_eq_getElem hi]; rfl
  have h1 := integrate_pinned_entry sys.points w h r i _ hget hp
  have h2 := relaxIter_pinned_entry sys.sticks sys.iterations
    (integrate sys.points w h r) i _ (by rw [h1]; exact hget) hp
  show (relaxIter sys.sticks sys.iterations (integrate sys.points w h r)).getD i default = _
  rw [List.getD_eq_getElem?_getD, h2, h1, hget]
  rfl

/-- Concrete system used by the C1 witness. -/
def wSysC1 : RopeSystem := ⟨[⟨1, 2, 3, 4, true⟩], [], 0⟩

theorem c1_witness :
    (updatePhysics wSysC1 100 100 0).points.getD 0 default = wSysC1.points.getD 0 default :=
  c1_updatePhysics_fixes_pinned wSysC1 100 100 0 0 (by simp [wSysC1]) rfl

/-- C7: `resolveStick` on a stick whose endpoints coincide is a no-op: the
zero-distance guard fires, no division is performed and no point changes. -/
theorem c7_resolveStick_coincident_noop (pts : List Point) (st : Stick)
    (hx : (pts.getD st.p2 default).x = (pts.getD st.p1 default).x)
    (hy : (pts.getD st.p2 default).y = (pts.getD st.p1 default).y) :
    resolveStick pts st = pts := by
  unfold resolveStick
  rw [if_pos]
  rw [hx, hy, sub_self, sub_self]
  simp

/-- Concrete points used by the C7 witness. -/
def wPtsC7 : List Point := [⟨1, 1, 0, 0, false⟩, ⟨1, 1, 2, 2, true⟩]

theorem c7_witness : resolveStick wPtsC7 ⟨0, 1, 5⟩ = wPtsC7 :=
  c7_resolveStick_coincident_noop wPtsC7 ⟨0, 1, 5⟩ rfl rfl

/-- Case analysis of one `resolveStick` call with nonzero distance, shared by
several developments below. -/
theorem resolveStick_case_split (pts : List Point) (st : Stick) (q1 q2 : Point) (dx dy d c : ℝ)
    (hq1 : pts.getD st.p1 default = q1) (hq2 : pts.getD st.p2 default = q2)
    (hdx : dx = q2.x - q1.x) (hdy : dy = q2.y - q1.y)
    (hd : d = Real.sqrt (dx * dx + dy * dy)) (hd0 : d ≠ 0)
    (hc : c = (st.length - d) / d / 2) :
    (q1.pinned = false ∧ q2.pinned = false →
      resolveStick pts st =
        (pts.set st.p1 { q1 with x := q1.x - dx * c, y := q1.y - dy * c }).set st.p2
          { q2 with x := q2.x + dx * c, y := q2.y + dy * c })
    ∧ (q1.pinned = true ∧ q2.pinned = false →
      resolveStick pts st =
          pts.set st.p2 { q2 with x := q2.x + dx * c * 2, y := q2.y + dy * c * 2 }
        ∧ (resolveStick pts st).getD st.p1 default = q1)
    ∧ (q1.pinned = false ∧ q2.pinned = true →
      resolveStick pts st =
          pts.set st.p1 { q1 with x := q1.x - dx * c * 2, y := q1.y - dy * c * 2 }
        ∧ (resolveStick pts st).getD st.p2 default = q2)
    ∧ (q1.pinned = true ∧ q2.pinned = true → resolveStick pts st = pts) := by
  have hne : st.p1 ≠ st.p2 := by
    intro he
    apply hd0
    have hqq : q1 = q2 := by rw [← hq1, ← hq2, he]
    rw [hd, hdx, hdy, hqq, sub_self, sub_self]
    simp
  have hres : resolveStick pts st =
      if q1.pinned = true ∧ q2.pinned = false then
        pts.set st.p2 { q2 with x := q2.x + dx * c * 2, y := q2.y + dy * c * 2 }
      else if q1.pinned = false ∧ q2.pinned = true then
        pts.set st.p1 { q1 with x := q1.x - dx * c * 2, y := q1.y - dy * c * 2 }
      else if q1.pinned = false ∧ q2.pinned = false then
        (pts.set st.p1 { q1 with x := q1.x - dx * c, y := q1.y - dy * c }).set st.p2
          { q2 with x := q2.x + dx * c, y := q2.y + dy * c }
      else pts := by
    unfold resolveStick
    dsimp only
    rw [hq1, hq2, ← hdx, ← hdy, ← hd, if_neg hd0, ← hc]
  refine ⟨fun hcase => ?_, fun hcase => ?_, fun hcase => ?_, fun hcase => ?_⟩
  · rw [hres, if_neg (by simp [hcase.1]), if_neg (by simp [hcase.2]), if_pos hcase]
  · have h1 : resolveStick pts st =
        pts.set st.p2 { q2 with x := q2.x + dx * c * 2, y := q2.y + dy * c * 2 } := by
      rw [hres, if_pos hcase]
    exact ⟨h1, by rw [h1, getD_set_ne _ _ _ _ fun he => hne he.symm, hq1]⟩
  · have h1 : resolveStick pts st =
        pts.set st.p1 { q1 with x := q1.x - dx * c * 2, y := q1.y - dy * c * 2 } := by
      rw [hres, if_neg (by simp [hcase.1]), if_pos hcase]
    exact ⟨h1, by rw [h1, getD_set_ne _ _ _ _ hne, hq2]⟩
  · rw [hres, if_neg (by simp [hcase.2]), if_neg (by simp [hcase.1]),
      if_neg (by simp [hcase.1]) ]

/-- C4: for a stick with nonzero endpoint distance `d`, one `resolveStick`
call moves the endpoints exactly by the pin-state case analysis with
`c = (length - d) / d / 2`: both free, each takes half the correction; exactly
one pinned, the free endpoint takes the whole correction (twice the per-point
share) while the pinned endpoint does not move; both pinned, nothing moves. -/
theorem c4_resolveStick_cases (pts : List Point) (st : Stick) (q1 q2 : Point) (dx dy d c : ℝ)
    (hq1 : pts.getD st.p1 default = q1) (hq2 : pts.getD st.p2 default = q2)
    (hdx : dx = q2.x - q1.x) (hdy : dy = q2.y - q1.y)
    (hd : d = Real.sqrt (dx * dx + dy * dy)) (hd0 : d ≠ 0)
    (hc : c = (st.length - d) / d / 2) :
    (q1.pinned = false ∧ q2.pinned = false →
      resolveStick pts st =
        (pts.set st.p1 { q1 with x := q1.x - dx * c, y := q1.y - dy * c }).set st.p2
          { q2 with x := q2.x + dx * c, y := q2.y + dy * c })
    ∧ (q1.pinned = true ∧ q2.pinned = false →
      resolveStick pts st =
          pts.set st.p2 { q2 with x := q2.x + dx * c * 2, y := q2.y + dy * c * 2 }
        ∧ (resolveStick pts st).getD st.p1 default = q1)
    ∧ (q1.pinned = false ∧ q2.pinned = true →
      resolveStick pts st =
          pts.set st.p1 { q1 with x := q1.x - dx * c * 2, y := q1.y - dy * c * 2 }
        ∧ (resolveStick pts st).getD st.p2 default = q2)
    ∧ (q1.pinned = true ∧ q2.pinned = true → resolveStick pts st = pts) :=
  resolveStick_case_split pts st q1 q2 dx dy d c hq1 hq2 hdx hdy hd hd0 hc

/-- Concrete points used by the C4 witness: a 3-4-5 configuration. -/
def wPtsC4 : List Point := [⟨0, 0, 0, 0, false⟩, ⟨3, 4, 3, 4, false⟩]

theorem c4_witness :
    resolveStick wPtsC4 ⟨0, 1, 10⟩ =
      (wPtsC4.set 0 ⟨0 - 3 * ((10 - 5) / 5 / 2), 0 - 4 * ((10 - 5) / 5 / 2), 0, 0, false⟩).set 1
        ⟨3 + 3 * ((10 - 5) / 5 / 2), 4 + 4 * ((10 - 5) / 5 / 2), 3, 4, false⟩ := by
  have h := c4_resolveStick_cases wPtsC4 ⟨0, 1, 10⟩ ⟨0, 0, 0, 0, false⟩ ⟨3, 4, 3, 4, false⟩
    3 4 5 ((10 - 5) / 5 / 2) rfl rfl (by norm_num) (by norm_num)
    (by rw [show (3 : ℝ) * 3 + 4 * 4 = 5 ^ 2 by norm_num,
          Real.sqrt_sq (by norm_num : (0 : ℝ) ≤ 5)])
    (by norm_num) rfl
  exact h.1 ⟨rfl, rfl⟩

/-- C6: for an unpinned point, after its Verlet update inside one
`updatePhysics` call (effective radius `bulbRadius` for the last point, `0`
otherwise): if the updated `y` exceeds `height - r` then `y` is clamped to
`height - r`, the post-clamp implicit horizontal velocity is the pre-clamp one
times `GROUND_FRICTION`, and the post-clamp implicit vertical velocity is
zero; if `x` falls outside `[r, width - r]` it is clamped to the nearest wall
with the implicit horizontal velocity reflected and scaled by `WALL_BOUNCE`
via `oldx`. -/
theorem c6_collision_response (pts : List Point) (width height bulbRadius : ℝ) (i : ℕ)
    (hi : i < pts.length) (hp : (pts.getD i default).pinned = false) :
    ∀ r pv q res,
      r = (if i = pts.length - 1 then bulbRadius else 0) →
      pv = verletStep (pts.getD i default) →
      q = floorCollide height r pv →
      res = (integrate pts width height bulbRadius).getD i default →
      ((pv.y > height - r →
          q.y = height - r ∧ q.x - q.oldx = (pv.x - pv.oldx) * GROUND_FRICTION ∧
            q.y - q.oldy = 0)
        ∧ (q.x < r → res.x = r ∧ res.oldx = r + (r - q.oldx) * WALL_BOUNCE)
        ∧ (¬q.x < r → q.x > width - r →
            res.x = width - r ∧
              res.oldx = (width - r) + ((width - r) - q.oldx) * WALL_BOUNCE)
        ∧ res = wallCollide width r q) := by
  intro r pv q res hr hpv hq hres
  have hwall : res = wallCollide width r q := by
    rw [hres]
    unfold integrate
    rw [getD_range_map _ _ _ _ hi]
    unfold integratePoint
    rw [hp]
    rw [hq, hpv, hr]
    simp
  refine ⟨fun hfloor => ?_, fun hw => ?_, fun hw1 hw2 => ?_, hwall⟩
  · rw [hq]
    unfold floorCollide
    rw [if_pos hfloor]
    exact ⟨rfl, by ring, by ring⟩
  · rw [hwall]
    unfold wallCollide
    rw [if_pos hw]
    exact ⟨rfl, rfl⟩
  · rw [hwall]
    unfold wallCollide
    rw [if_neg hw1, if_pos hw2]
    exact ⟨rfl, rfl⟩

/-- Concrete point used by the C6 witness: resting above the floor with the
gravity increment pushing it through. -/
def wPtsC6 : List Point := [⟨5, 100, 5, 100, false⟩]

theorem c6_witness :
    (floorCollide 100 0 (verletStep (wPtsC6.getD 0 default))).y = 100 - 0 ∧
      (floorCollide 100 0 (verletStep (wPtsC6.getD 0 default))).y -
        (floorCollide 100 0 (verletStep (wPtsC6.getD 0 default))).oldy = 0 := by
  have h := c6_collision_response wPtsC6 200 100 0 0 (by norm_num [wPtsC6]) rfl
    0 (verletStep (wPtsC6.getD 0 default))
    (floorCollide 100 0 (verletStep (wPtsC6.getD 0 default)))
    ((integrate wPtsC6 200 100 0).getD 0 default)
    (by simp) rfl rfl rfl
  have hfl : (verletStep (wPtsC6.getD 0 default)).y > 100 - 0 := by
    norm_num [wPtsC6, verletStep, FRICTION, GRAVITY]
  exact ⟨(h.1 hfl).1, (h.1 hfl).2.2⟩

/- Entry-wise description of the snag loop. -/

theorem snagPoints_getD (ax ay : ℝ) (pts : List Point) (i : ℕ) (hi : i < pts.length) :
    (snagPoints ax ay pts).getD i default =
      if i + 1 < pts.length ∧ (pts.getD i default).pinned = false ∧
          hypot ((pts.getD i default).x - ax) ((pts.getD i default).y - ay) < SNAG_THRESHOLD
      then ⟨ax, ay, ax, ay, true⟩ else pts.getD i default := by
  unfold snagPoints
  rw [getD_range_map _ _ _ _ hi]

theorem snagPoints_length (ax ay : ℝ) (pts : List Point) :
    (snagPoints ax ay pts).length = pts.length := length_range_map _ _

theorem getElem?_eq_some_getD (l : List Point) (n : ℕ) (h : n < l.length) :
    l[n]? = some (l.getD n default) := by
  rw [List.getElem?_eq_getElem h, List.getD_eq_getElem?_getD, List.getElem?_eq_getElem h]
  rfl

/-- Points the C5 counterexample is about: the last point is unpinned and lies
exactly on the peg, yet the snag loop never examines it. -/
def wPtsC5x : List Point := [⟨0, 0, 0, 0, true⟩, ⟨5, 5, 0, 0, false⟩]

/-- C5 fails as stated: while dragging with the peg at `(5, 5)`, the last
point is unpinned and at distance `0 < 25` from the peg, yet the snag step
leaves it unpinned — the snag loop stops before the last point. -/
theorem c5_counterexample :
    (wPtsC5x.getD 1 default).pinned = false ∧
      hypot ((wPtsC5x.getD 1 default).x - 5) ((wPtsC5x.getD 1 default).y - 5) <
        SNAG_THRESHOLD ∧
      ((snagStep (some (5, 5)) ⟨true, some 1⟩ wPtsC5x).getD 1 default).pinned = false := by
  refine ⟨rfl, ?_, ?_⟩
  · norm_num [wPtsC5x, hypot, SNAG_THRESHOLD]
  · have hs : snagStep (some (5, 5)) ⟨true, some 1⟩ wPtsC5x = snagPoints 5 5 wPtsC5x := by
      unfold snagStep
      dsimp only
      rw [if_pos rfl]
    rw [hs, snagPoints_getD 5 5 wPtsC5x 1 (by norm_num [wPtsC5x]), if_neg]
    · rfl
    · rintro ⟨h, -, -⟩
      simp [wPtsC5x] at h

/-- C5 (amended): while dragging with a mount anchor at `(ax, ay)`, every
not-yet-pinned point OTHER THAN THE LAST ONE whose distance to the anchor is
under `SNAG_THRESHOLD` is pinned and teleported to the anchor with zero
implicit velocity; already pinned points (in particular points already snagged
to the anchor) are left exactly as they are, and the snag step as a whole is
idempotent. -/
theorem c5_snag_amended (ax ay : ℝ) (drag : DragState) (pts : List Point)
    (hd : drag.isDragging = true) :
    (∀ i, i + 1 < pts.length → (pts.getD i default).pinned = false →
      hypot ((pts.getD i default).x - ax) ((pts.getD i default).y - ay) < SNAG_THRESHOLD →
      (snagStep (some (ax, ay)) drag pts).getD i default = ⟨ax, ay, ax, ay, true⟩)
    ∧ (∀ i, (pts.getD i default).pinned = true →
      (snagStep (some (ax, ay)) drag pts).getD i default = pts.getD i default)
    ∧ snagStep (some (ax, ay)) drag (snagStep (some (ax, ay)) drag pts) =
        snagStep (some (ax, ay)) drag pts := by
  have hs : ∀ l : List Point, snagStep (some (ax, ay)) drag l = snagPoints ax ay l := by
    intro l
    unfold snagStep
    dsimp only
    rw [if_pos hd]
  refine ⟨fun i hi hpin hdist => ?_, fun i hpin => ?_, ?_⟩
  · rw [hs, snagPoints_getD ax ay pts i (Nat.lt_of_succ_lt hi), if_pos ⟨hi, hpin, hdist⟩]
  · rcases Nat.lt_or_ge i pts.length with hlt | hge
    · rw [hs, snagPoints_getD ax ay pts i hlt, if_neg]
      rintro ⟨-, hc, -⟩
      rw [hpin] at hc
      exact Bool.noConfusion hc
    · rw [hs, List.getD_eq_default _ _ (by rw [snagPoints_length]; exact hge),
        List.getD_eq_default _ _ hge]
  · rw [hs, hs]
    apply List.ext_getElem?
    intro n
    rcases Nat.lt_or_ge n pts.length with hlt | hge
    · have hlt' : n < (snagPoints ax ay pts).length := by rw [snagPoints_length]; exact hlt
      have hlt'' : n < (snagPoints ax ay (snagPoints ax ay pts)).length := by
        rw [snagPoints_length, snagPoints_length]; exact hlt
      rw [getElem?_eq_some_getD _ n hlt'', getElem?_eq_some_getD _ n hlt']
      refine congrArg some ?_
      rw [snagPoints_getD ax ay _ n hlt']
      by_cases hc : n + 1 < pts.length ∧ (pts.getD n default).pinned = false ∧
          hypot ((pts.getD n default).x - ax) ((pts.getD n default).y - ay) < SNAG_THRESHOLD
      · have hv : (snagPoints ax ay pts).getD n default = ⟨ax, ay, ax, ay, true⟩ := by
          rw [snagPoints_getD ax ay pts n hlt, if_pos hc]
        rw [hv]
        exact ite_self _
      · have hv : (snagPoints ax ay pts).getD n default = pts.getD n default := by
          rw [snagPoints_getD ax ay pts n hlt, if_neg hc]
        rw [hv, snagPoints_length, if_neg hc]
    · rw [List.getElem?_eq_none (by rw [snagPoints_length, snagPoints_length]; exact hge),
        List.getElem?_eq_none (by rw [snagPoints_length]; exact hge)]

/-- Points used by the C5 witness: the first point sits exactly on the peg. -/
def wPtsC5 : List Point := [⟨5, 5, 0, 0, false⟩, ⟨100, 100, 100, 100, false⟩]

theorem c5_witness :
    (snagStep (some (5, 5)) ⟨true, some 1⟩ wPtsC5).getD 0 default = ⟨5, 5, 5, 5, true⟩ :=
  (c5_snag_amended 5 5 ⟨true, some 1⟩ wPtsC5 rfl).1 0 (by norm_num [wPtsC5]) rfl
    (by norm_num [wPtsC5, hypot, SNAG_THRESHOLD])

/-- The first component of `handlePointerUp` during an active drag, as a
single conditional on the secure test. -/
theorem handlePointerUp_fst_dragging (ax ay : ℝ) (drag : DragState) (pts : List Point)
    (j : ℕ) (hd : drag.isDragging = true) (hj : drag.pointIndex = some j)
    (lastPt : Point) (hlast : pts.getD (pts.length - 1) default = lastPt) :
    (handlePointerUp (some (ax, ay)) drag pts).1 =
      if hypot (lastPt.x - ax) (lastPt.y - ay) < SECURE_THRESHOLD then
        pts.set (pts.length - 1) { lastPt with pinned := true, x := ax, y := ay }
      else pts.set (pts.length - 1) { lastPt with pinned := false } := by
  have hguard : drag.isDragging = true ∧ drag.pointIndex ≠ none :=
    ⟨hd, by rw [hj]; exact Option.some_ne_none j⟩
  unfold handlePointerUp
  dsimp only
  rw [if_pos hguard, hlast]

/-- C9: on pointer-up while dragging with a mounted peg, the end point is
secured (kept pinned and moved to the peg's exact coordinates) exactly when
its distance to the peg is under `SECURE_THRESHOLD`, and is unpinned
otherwise; dragging returns to idle in both cases, and the securing threshold
(40) is strictly greater than the snag threshold (25). -/
theorem c9_pointer_up (ax ay : ℝ) (drag : DragState) (pts : List Point) (j : ℕ)
    (hd : drag.isDragging = true) (hj : drag.pointIndex = some j) :
    ∀ lastPt : Point, pts.getD (pts.length - 1) default = lastPt →
      ((hypot (lastPt.x - ax) (lastPt.y - ay) < SECURE_THRESHOLD →
          (handlePointerUp (some (ax, ay)) drag pts).1 =
            pts.set (pts.length - 1) { lastPt with pinned := true, x := ax, y := ay })
        ∧ (¬hypot (lastPt.x - ax) (lastPt.y - ay) < SECURE_THRESHOLD →
          (handlePointerUp (some (ax, ay)) drag pts).1 =
            pts.set (pts.length - 1) { lastPt with pinned := false })
        ∧ (handlePointerUp (some (ax, ay)) drag pts).2 = ⟨false, none⟩
        ∧ SNAG_THRESHOLD < SECURE_THRESHOLD) := by
  intro lastPt hlast
  have hfst := handlePointerUp_fst_dragging ax ay drag pts j hd hj lastPt hlast
  refine ⟨fun hsec => ?_, fun hsec => ?_, rfl, ?_⟩
  · rw [hfst, if_pos hsec]
  · rw [hfst, if_neg hsec]
  · norm_num [SNAG_THRESHOLD, SECURE_THRESHOLD]

/-- Points used by the C9 and C10 witnesses: the end point is 5 units from
the peg at `(8, 9)`, within the securing threshold. -/
def wPtsC9 : List Point := [⟨0, 0, 0, 0, true⟩, ⟨5, 5, 2, 3, true⟩]

theorem c9_witness :
    (handlePointerUp (some (8, 9)) ⟨true, some 1⟩ wPtsC9).1 =
      wPtsC9.set 1 ⟨8, 9, 2, 3, true⟩ := by
  have h := c9_pointer_up 8 9 ⟨true, some 1⟩ wPtsC9 1 rfl rfl ⟨5, 5, 2, 3, true⟩ rfl
  exact h.1 (by
    norm_num [hypot, SECURE_THRESHOLD]
    rw [show (25:ℝ) = 5 ^ 2 by norm_num, Real.sqrt_sq (by norm_num : (0:ℝ) ≤ 5)]
    norm_num)

/-- C10: on a secured release, only the end point's `x`, `y` and `pinned`
fields are written — its `oldx` and `oldy` keep their pre-release values, so
the implicit velocity is not zeroed (unlike snagging) — and no other point of
the rope is modified. -/
theorem c10_secured_release_frame (ax ay : ℝ) (drag : DragState) (pts : List Point) (j : ℕ)
    (hd : drag.isDragging = true) (hj : drag.pointIndex = some j)
    (hne : pts ≠ []) :
    ∀ lastPt : Point, pts.getD (pts.length - 1) default = lastPt →
      hypot (lastPt.x - ax) (lastPt.y - ay) < SECURE_THRESHOLD →
      ((handlePointerUp (some (ax, ay)) drag pts).1.getD (pts.length - 1) default =
          ⟨ax, ay, lastPt.oldx, lastPt.oldy, true⟩
        ∧ ∀ i, i ≠ pts.length - 1 →
            (handlePointerUp (some (ax, ay)) drag pts).1.getD i default =
              pts.getD i default) := by
  intro lastPt hlast hsec
  have hlen : 0 < pts.length := List.length_pos.mpr hne
  have hfst : (handlePointerUp (some (ax, ay)) drag pts).1 =
      pts.set (pts.length - 1) { lastPt with pinned := true, x := ax, y := ay } := by
    rw [handlePointerUp_fst_dragging ax ay drag pts j hd hj lastPt hlast, if_pos hsec]
  constructor
  · rw [hfst, getD_set_self _ _ _ (by omega)]
  · intro i hi
    rw [hfst, getD_set_ne _ _ _ _ fun he => hi he.symm]

theorem c10_witness :
    (handlePointerUp (some (8, 9)) ⟨true, some 1⟩ wPtsC9).1.getD 1 default =
      ⟨8, 9, 2, 3, true⟩ := by
  have h := c10_secured_release_frame 8 9 ⟨true, some 1⟩ wPtsC9 1 rfl rfl
    (by simp [wPtsC9]) ⟨5, 5, 2, 3, true⟩ rfl
    (by
      norm_num [hypot, SECURE_THRESHOLD]
      rw [show (25:ℝ) = 5 ^ 2 by norm_num, Real.sqrt_sq (by norm_num : (0:ℝ) ≤ 5)]
      norm_num)
  exact h.1

/- Characterization of the anchor search. -/

theorem findPinnedFrom_le (pts : List Point) (s : ℕ) : findPinnedFrom pts s ≤ s := by
  induction s with
  | zero => exact Nat.le_refl 0
  | succ s ih =>
    unfold findPinnedFrom
    split
    · exact Nat.le_refl _
    · exact Nat.le_succ_of_le ih

theorem findPinnedFrom_pinned_or_zero (pts : List Point) (s : ℕ) :
    findPinnedFrom pts s = 0 ∨ (pts.getD (findPinnedFrom pts s) default).pinned = true := by
  induction s with
  | zero => exact Or.inl rfl
  | succ s ih =>
    unfold findPinnedFrom
    split
    · next h => exact Or.inr h
    · exact ih

theorem findPinnedFrom_succ (pts : List Point) (s : ℕ) :
    findPinnedFrom pts (s + 1) =
      if (pts.getD (s + 1) default).pinned = true then s + 1 else findPinnedFrom pts s := by
  conv_lhs => rw [findPinnedFrom]

theorem findPinnedFrom_max (pts : List Point) (s k : ℕ)
    (h1 : findPinnedFrom pts s < k) (h2 : k ≤ s) :
    (pts.getD k default).pinned = false := by
  induction s with
  | zero => omega
  | succ s ih =>
    rcases Nat.lt_or_ge (findPinnedFrom pts (s + 1)) (s + 1) with hlt | hge
    · have hnotpin : ¬(pts.getD (s + 1) default).pinned = true := by
        intro hpin
        rw [findPinnedFrom_succ, if_pos hpin] at hlt
        omega
      have heq : findPinnedFrom pts (s + 1) = findPinnedFrom pts s := by
        rw [findPinnedFrom_succ, if_neg hnotpin]
      rcases Nat.lt_or_ge k (s + 1) with hk | hk
      · exact ih (by rw [← heq]; exact h1) (by omega)
      · have : k = s + 1 := by omega
        rw [this]
        exact Bool.not_eq_true _ ▸ (Bool.eq_false_iff.mpr hnotpin)
    · have := findPinnedFrom_le pts (s + 1)
      omega

/-- C2: whenever the winch runs while dragging (point index `j`), with anchor
index `a` (the last pinned point at index at most `points.length - 2`,
defaulting to 0) and `n = (points.length - 1) - a` active segments: if
`n = 0` the whole winch step is a no-op; if `n > 0`, every stick from index
`a` on gets the uniform length `d / n` where `d` is the straight-line
distance from the anchor to the pointer, and every point `a + i`
(`1 ≤ i ≤ n`) is teleported onto the anchor-to-pointer line at parameter
`i / n` with its previous position set equal to its new position (zero
implicit velocity). -/
theorem c2_winch (sys : RopeSystem) (mouseX mouseY : ℝ) (drag : DragState) (j : ℕ)
    (hd : drag.isDragging = true) (hj : drag.pointIndex = some j) :
    ∀ a n anchor d,
      a = anchorIndexOf sys.points →
      n = (sys.points.length - 1) - a →
      anchor = sys.points.getD a default →
      d = Real.sqrt ((mouseX - anchor.x) * (mouseX - anchor.x) +
            (mouseY - anchor.y) * (mouseY - anchor.y)) →
      ((a = 0 ∨ (sys.points.getD a default).pinned = true)
        ∧ a ≤ sys.points.length - 2
        ∧ (∀ k, a < k → k ≤ sys.points.length - 2 →
            (sys.points.getD k default).pinned = false)
        ∧ (n = 0 → winchSystem mouseX mouseY drag sys = sys)
        ∧ (0 < n →
            (∀ k, a ≤ k → k < sys.sticks.length →
              (winchSystem mouseX mouseY drag sys).sticks.getD k default =
                { sys.sticks.getD k default with length := d / (n : ℝ) })
            ∧ (∀ i, 1 ≤ i → i ≤ n →
              (winchSystem mouseX mouseY drag sys).points.getD (a + i) default =
                { x := anchor.x + (mouseX - anchor.x) * ((i : ℝ) / (n : ℝ))
                  y := anchor.y + (mouseY - anchor.y) * ((i : ℝ) / (n : ℝ))
                  oldx := anchor.x + (mouseX - anchor.x) * ((i : ℝ) / (n : ℝ))
                  oldy := anchor.y + (mouseY - anchor.y) * ((i : ℝ) / (n : ℝ))
                  pinned := if a + i = j then true else
                    (sys.points.getD (a + i) default).pinned }))) := by
  intro a n anchor d ha hn hanchor hdist
  have hguard : drag.isDragging = true ∧ drag.pointIndex ≠ none :=
    ⟨hd, by rw [hj]; exact Option.some_ne_none j⟩
  have hwinch : winchSystem mouseX mouseY drag sys =
      if 0 < (sys.points.length - 1) - anchorIndexOf sys.points then
        { sys with
          sticks := (List.range sys.sticks.length).map fun i =>
            if anchorIndexOf sys.points ≤ i then
              { sys.sticks.getD i default with
                length := Real.sqrt
                    ((mouseX - (sys.points.getD (anchorIndexOf sys.points) default).x) *
                        (mouseX - (sys.points.getD (anchorIndexOf sys.points) default).x) +
                      (mouseY - (sys.points.getD (anchorIndexOf sys.points) default).y) *
                        (mouseY - (sys.points.getD (anchorIndexOf sys.points) default).y)) /
                  (((sys.points.length - 1) - anchorIndexOf sys.points : ℕ) : ℝ) }
            else sys.sticks.getD i default
          points := (List.range sys.points.length).map fun i =>
            if anchorIndexOf sys.points < i then
              { x := (sys.points.getD (anchorIndexOf sys.points) default).x +
                  (mouseX - (sys.points.getD (anchorIndexOf sys.points) default).x) *
                    (((i - anchorIndexOf sys.points : ℕ) : ℝ) /
                      (((sys.points.length - 1) - anchorIndexOf sys.points : ℕ) : ℝ))
                y := (sys.points.getD (anchorIndexOf sys.points) default).y +
                  (mouseY - (sys.points.getD (anchorIndexOf sys.points) default).y) *
                    (((i - anchorIndexOf sys.points : ℕ) : ℝ) /
                      (((sys.points.length - 1) - anchorIndexOf sys.points : ℕ) : ℝ))
                oldx := (sys.points.getD (anchorIndexOf sys.points) default).x +
                  (mouseX - (sys.points.getD (anchorIndexOf sys.points) default).x) *
                    (((i - anchorIndexOf sys.points : ℕ) : ℝ) /
                      (((sys.points.length - 1) - anchorIndexOf sys.points : ℕ) : ℝ))
                oldy := (sys.points.getD (anchorIndexOf sys.points) default).y +
                  (mouseY - (sys.points.getD (anchorIndexOf sys.points) default).y) *
                    (((i - anchorIndexOf sys.points : ℕ) : ℝ) /
                      (((sys.points.length - 1) - anchorIndexOf sys.points : ℕ) : ℝ))
                pinned := if i = j then true else (sys.points.getD i default).pinned }
            else sys.points.getD i default }
      else sys := by
    unfold winchSystem
    rw [hj]
    rw [if_pos ⟨hd, Option.some_ne_none j⟩]
  refine ⟨?_, ?_, ?_, ?_, ?_⟩
  · rw [ha]
    exact (findPinnedFrom_pinned_or_zero sys.points _).imp id id
  · rw [ha]
    exact findPinnedFrom_le sys.points _
  · intro k hk1 hk2
    rw [ha] at hk1
    exact findPinnedFrom_max sys.points _ k hk1 hk2
  · intro h0
    rw [hwinch, if_neg (by omega)]
  · intro h0
    have hpos : 0 < (sys.points.length - 1) - anchorIndexOf sys.points := by omega
    constructor
    · intro k hk1 hk2
      rw [hwinch, if_pos hpos]
      show ((List.range sys.sticks.length).map _).getD k default = _
      rw [getD_range_map _ _ _ _ hk2, if_pos (by omega : anchorIndexOf sys.points ≤ k)]
      rw [hdist, hanchor, hn, ha]
    · intro i hi1 hi2
      have hai : a + i < sys.points.length := by omega
      rw [hwinch, if_pos hpos]
      show ((List.range sys.points.length).map _).getD (a + i) default = _
      rw [getD_range_map _ _ _ _ hai, if_pos (by omega : anchorIndexOf sys.points < a + i)]
      rw [← ha, Nat.add_sub_cancel_left, ← hn, ← hanchor]

/-- System used by the C2 witness: a two-point rope with its root pinned. -/
def wSysC2 : RopeSystem := ⟨[⟨0, 0, 0, 0, true⟩, ⟨0, 10, 0, 10, false⟩], [⟨0, 1, 10⟩], 600⟩

theorem c2_witness :
    (winchSystem 3 4 ⟨true, some 1⟩ wSysC2).sticks.getD 0 default =
      { wSysC2.sticks.getD 0 default with length := 5 / ((1 : ℕ) : ℝ) } := by
  have h := c2_winch wSysC2 3 4 ⟨true, some 1⟩ 1 rfl rfl 0 1 ⟨0, 0, 0, 0, true⟩ 5
    rfl rfl rfl
    (by
      rw [show (3 - (⟨0, 0, 0, 0, true⟩ : Point).x) * (3 - (⟨0, 0, 0, 0, true⟩ : Point).x) +
            (4 - (⟨0, 0, 0, 0, true⟩ : Point).y) * (4 - (⟨0, 0, 0, 0, true⟩ : Point).y) =
            (5 : ℝ) ^ 2 by norm_num,
        Real.sqrt_sq (by norm_num : (0 : ℝ) ≤ 5)])
  exact (h.2.2.2.2 (by norm_num)).1 0 (Nat.zero_le 0) (by simp [wSysC2])

/- Length and structure preservation of every operation. -/

theorem resolveStick_length (pts : List Point) (st : Stick) :
    (resolveStick pts st).length = pts.length := by
  unfold resolveStick
  dsimp only
  repeat' split
  all_goals simp

theorem foldl_resolveStick_length (sticks : List Stick) (pts : List Point) :
    (sticks.foldl resolveStick pts).length = pts.length := by
  induction sticks generalizing pts with
  | nil => rfl
  | cons s rest ih => rw [List.foldl_cons, ih, resolveStick_length]

theorem relaxOnce_length (sticks : List Stick) (pts : List Point) :
    (relaxOnce sticks pts).length = pts.length := by
  unfold relaxOnce
  rw [foldl_resolveStick_length, foldl_resolveStick_length]

theorem relaxIter_length (sticks : List Stick) (n : ℕ) (pts : List Point) :
    (relaxIter sticks n pts).length = pts.length := by
  induction n generalizing pts with
  | zero => rfl
  | succ n ih => rw [relaxIter, ih, relaxOnce_length]

theorem integrate_length (pts : List Point) (w h r : ℝ) :
    (integrate pts w h r).length = pts.length := length_range_map _ _

theorem updatePhysics_points_length (sys : RopeSystem) (w h r : ℝ) :
    (updatePhysics sys w h r).points.length = sys.points.length := by
  show (relaxIter _ _ _).length = _
  rw [relaxIter_length, integrate_length]

theorem winchSystem_points_length (mx my : ℝ) (drag : DragState) (sys : RopeSystem) :
    (winchSystem mx my drag sys).points.length = sys.points.length := by
  unfold winchSystem
  split
  · split
    · rfl
    · dsimp only
      split
      · exact length_range_map _ _
      · rfl
  · rfl

theorem winchSystem_sticks_structure (mx my : ℝ) (drag : DragState) (sys : RopeSystem) :
    (winchSystem mx my drag sys).sticks.length = sys.sticks.length ∧
      ∀ i, i < sys.sticks.length →
        ((winchSystem mx my drag sys).sticks.getD i default).p1 =
            (sys.sticks.getD i default).p1 ∧
          ((winchSystem mx my drag sys).sticks.getD i default).p2 =
            (sys.sticks.getD i default).p2 := by
  unfold winchSystem
  split
  · split
    · exact ⟨rfl, fun i _ => ⟨rfl, rfl⟩⟩
    · dsimp only
      split
      · refine ⟨length_range_map _ _, fun i hi => ?_⟩
        dsimp only
        rw [getD_range_map _ _ _ _ hi]
        constructor
        · split <;> rfl
        · split <;> rfl
      · exact ⟨rfl, fun i _ => ⟨rfl, rfl⟩⟩
  · exact ⟨rfl, fun i _ => ⟨rfl, rfl⟩⟩

theorem snagStep_length (mount : Option (ℝ × ℝ)) (drag : DragState) (pts : List Point) :
    (snagStep mount drag pts).length = pts.length := by
  rcases mount with - | ⟨mx, my⟩
  · rfl
  · unfold snagStep
    dsimp only
    split
    · exact snagPoints_length _ _ _
    · rfl

theorem pinOnGrab_fst_length (x y : ℝ) (pts : List Point) (drag : DragState) :
    (pinOnGrab x y pts drag).1.length = pts.length := by
  unfold pinOnGrab
  dsimp only
  split
  · exact List.length_set _ _ _
  · rfl

theorem handlePointerUp_fst_length (mount : Option (ℝ × ℝ)) (drag : DragState)
    (pts : List Point) : (handlePointerUp mount drag pts).1.length = pts.length := by
  unfold handlePointerUp
  dsimp only
  split
  · split
    · split
      · exact List.length_set _ _ _
      · exact List.length_set _ _ _
    · exact List.length_set _ _ _
  · rfl

/-- C8: for a rope built by `createRope`, in every state reachable by any
sequence of operations (physics steps, winching, snagging, pin-on-grab,
release) the point count is unchanged, `sticks.length = points.length - 1`,
and stick `i` still joins exactly points `i` and `i + 1`: no operation adds,
removes or reorders points or sticks — winching rewrites only stick length
fields. -/
theorem c8_structural_invariant (startX startY : ℝ) (segments : ℕ) (segmentLength : ℝ)
    (sys : RopeSystem) (hseg : 1 ≤ segments)
    (hr : Reachable (createRope startX startY segments segmentLength) sys) :
    sys.points.length = segments ∧ sys.sticks.length = segments - 1 ∧
      ∀ i, i < segments - 1 →
        (sys.sticks.getD i default).p1 = i ∧ (sys.sticks.getD i default).p2 = i + 1 := by
  induction hr with
  | refl =>
    unfold createRope
    refine ⟨length_range_map _ _, length_range_map _ _, fun i hi => ?_⟩
    dsimp only
    rw [getD_range_map _ _ _ _ hi]
    exact ⟨rfl, rfl⟩
  | step_update b w h r hrec ih =>
    refine ⟨?_, ih.2.1, ih.2.2⟩
    rw [updatePhysics_points_length]
    exact ih.1
  | step_winch b mx my drag hrec ih =>
    have hs := winchSystem_sticks_structure mx my drag b
    refine ⟨?_, ?_, fun i hi => ?_⟩
    · rw [winchSystem_points_length]
      exact ih.1
    · rw [hs.1]
      exact ih.2.1
    · have hi' : i < b.sticks.length := by rw [ih.2.1]; exact hi
      rw [(hs.2 i hi').1, (hs.2 i hi').2]
      exact ih.2.2 i hi
  | step_snag b mount drag hrec ih =>
    refine ⟨?_, ih.2.1, ih.2.2⟩
    show (snagStep mount drag b.points).length = segments
    rw [snagStep_length]
    exact ih.1
  | step_grab b mx my drag hrec ih =>
    refine ⟨?_, ih.2.1, ih.2.2⟩
    show (pinOnGrab mx my b.points drag).1.length = segments
    rw [pinOnGrab_fst_length]
    exact ih.1
  | step_release b mount drag hrec ih =>
    refine ⟨?_, ih.2.1, ih.2.2⟩
    show (handlePointerUp mount drag b.points).1.length = segments
    rw [handlePointerUp_fst_length]
    exact ih.1

theorem c8_witness :
    (1 ≤ 2) ∧
      ((createRope 0 0 2 1).points.length = 2 ∧
        (createRope 0 0 2 1).sticks.length = 2 - 1 ∧
        ∀ i, i < 2 - 1 →
          ((createRope 0 0 2 1).sticks.getD i default).p1 = i ∧
            ((createRope 0 0 2 1).sticks.getD i default).p2 = i + 1) :=
  ⟨by norm_num,
    c8_structural_invariant 0 0 2 1 (createRope 0 0 2 1) (by norm_num)
      (Reachable.refl _)⟩

/- The end-to-end scenario: a vertical 4-point rope.  All points share
`x = 0`, point 0 is pinned at the origin, and the solver acts purely on the
`y` coordinates. -/

/-- The vertical 4-point configuration reached after integrating
`createRope 0 0 4 10`: point 0 pinned at the origin, free points at heights
`y1, y2, y3` with previous heights `o1, o2, o3`. -/
def mkPts (y1 y2 y3 o1 o2 o3 : ℝ) : List Point :=
  [⟨0, 0, 0, 0, true⟩, ⟨0, y1, 0, o1, false⟩, ⟨0, y2, 0, o2, false⟩, ⟨0, y3, 0, o3, false⟩]

/-- The stick list of `createRope 0 0 4 10`. -/
def ropeSticks : List Stick := [⟨0, 1, 10⟩, ⟨1, 2, 10⟩, ⟨2, 3, 10⟩]

theorem resolve_mk_stick0 (y1 y2 y3 o1 o2 o3 : ℝ) (hy : 0 < y1) :
    resolveStick (mkPts y1 y2 y3 o1 o2 o3) ⟨0, 1, 10⟩ = mkPts 10 y2 y3 o1 o2 o3 := by
  have h := resolveStick_case_split (mkPts y1 y2 y3 o1 o2 o3) ⟨0, 1, 10⟩
    ⟨0, 0, 0, 0, true⟩ ⟨0, y1, 0, o1, false⟩ 0 y1 y1 ((10 - y1) / y1 / 2)
    rfl rfl (by norm_num) (by norm_num)
    (by rw [show (0 : ℝ) * 0 + y1 * y1 = y1 * y1 by ring, Real.sqrt_mul_self hy.le])
    (ne_of_gt hy) rfl
  rw [(h.2.1 ⟨rfl, rfl⟩).1]
  simp only [mkPts, List.set_cons_succ, List.set_cons_zero, List.cons.injEq, Point.mk.injEq]
  norm_num
  have h0 : y1 ≠ 0 := ne_of_gt hy
  field_simp
  ring

theorem resolve_mk_stick1 (y1 y2 y3 o1 o2 o3 : ℝ) (hy : 0 < y2 - y1) :
    resolveStick (mkPts y1 y2 y3 o1 o2 o3) ⟨1, 2, 10⟩ =
      mkPts (y1 + (y2 - y1 - 10) / 2) (y2 - (y2 - y1 - 10) / 2) y3 o1 o2 o3 := by
  have h := resolveStick_case_split (mkPts y1 y2 y3 o1 o2 o3) ⟨1, 2, 10⟩
    ⟨0, y1, 0, o1, false⟩ ⟨0, y2, 0, o2, false⟩ 0 (y2 - y1) (y2 - y1)
    ((10 - (y2 - y1)) / (y2 - y1) / 2)
    rfl rfl (by norm_num) (by norm_num)
    (by rw [show (0 : ℝ) * 0 + (y2 - y1) * (y2 - y1) = (y2 - y1) * (y2 - y1) by ring,
      Real.sqrt_mul_self hy.le])
    (ne_of_gt hy) rfl
  rw [h.1 ⟨rfl, rfl⟩]
  simp only [mkPts, List.set_cons_succ, List.set_cons_zero, List.cons.injEq, Point.mk.injEq]
  norm_num
  have h0 : y2 - y1 ≠ 0 := ne_of_gt hy
  constructor <;> (field_simp; ring)

theorem resolve_mk_stick2 (y1 y2 y3 o1 o2 o3 : ℝ) (hy : 0 < y3 - y2) :
    resolveStick (mkPts y1 y2 y3 o1 o2 o3) ⟨2, 3, 10⟩ =
      mkPts y1 (y2 + (y3 - y2 - 10) / 2) (y3 - (y3 - y2 - 10) / 2) o1 o2 o3 := by
  have h := resolveStick_case_split (mkPts y1 y2 y3 o1 o2 o3) ⟨2, 3, 10⟩
    ⟨0, y2, 0, o2, false⟩ ⟨0, y3, 0, o3, false⟩ 0 (y3 - y2) (y3 - y2)
    ((10 - (y3 - y2)) / (y3 - y2) / 2)
    rfl rfl (by norm_num) (by norm_num)
    (by rw [show (0 : ℝ) * 0 + (y3 - y2) * (y3 - y2) = (y3 - y2) * (y3 - y2) by ring,
      Real.sqrt_mul_self hy.le])
    (ne_of_gt hy) rfl
  rw [h.1 ⟨rfl, rfl⟩]
  simp only [mkPts, List.set_cons_succ, List.set_cons_zero, List.cons.injEq, Point.mk.injEq]
  norm_num
  have h0 : y3 - y2 ≠ 0 := ne_of_gt hy
  constructor <;> (field_simp; ring)

/-- One forward-and-backward relaxation pass on the vertical chain acts
affinely on the segment-length errors: with segment errors
`(e0, e1, e2)` (all at most 1 in absolute value) the pass produces errors
`(0, 5(e0+e1)/8 + e2/4, (e0+e1)/8 + e2/4)`. -/
theorem relaxOnce_mk (e0 e1 e2 o1 o2 o3 : ℝ)
    (h0 : |e0| ≤ 1) (h1 : |e1| ≤ 1) (h2 : |e2| ≤ 1) :
    relaxOnce ropeSticks
        (mkPts (10 + e0) (20 + e0 + e1) (30 + e0 + e1 + e2) o1 o2 o3) =
      mkPts 10 (20 + (5 * (e0 + e1) / 8 + e2 / 4))
        (30 + (5 * (e0 + e1) / 8 + e2 / 4) + ((e0 + e1) / 8 + e2 / 4)) o1 o2 o3 := by
  obtain ⟨h0l, h0r⟩ := abs_le.mp h0
  obtain ⟨h1l, h1r⟩ := abs_le.mp h1
  obtain ⟨h2l, h2r⟩ := abs_le.mp h2
  set Y2 := (20 : ℝ) + e0 + e1 with hY2
  set Y3 := (30 : ℝ) + e0 + e1 + e2 with hY3
  show resolveStick (resolveStick (resolveStick (resolveStick (resolveStick (resolveStick
      (mkPts (10 + e0) Y2 Y3 o1 o2 o3)
      ⟨0, 1, 10⟩) ⟨1, 2, 10⟩) ⟨2, 3, 10⟩) ⟨2, 3, 10⟩) ⟨1, 2, 10⟩) ⟨0, 1, 10⟩ = _
  rw [resolve_mk_stick0 (10 + e0) Y2 Y3 o1 o2 o3 (by linarith)]
  rw [resolve_mk_stick1 10 Y2 Y3 o1 o2 o3 (by rw [hY2]; linarith)]
  set A2 := (10 : ℝ) + (Y2 - 10 - 10) / 2 with hA2
  set B2 := Y2 - (Y2 - 10 - 10) / 2 with hB2
  rw [resolve_mk_stick2 A2 B2 Y3 o1 o2 o3 (by rw [hB2, hY2, hY3]; linarith)]
  set B3 := B2 + (Y3 - B2 - 10) / 2 with hB3
  set C3v := Y3 - (Y3 - B2 - 10) / 2 with hC3
  rw [resolve_mk_stick2 A2 B3 C3v o1 o2 o3 (by rw [hB3, hC3]; linarith)]
  set B4 := B3 + (C3v - B3 - 10) / 2 with hB4
  set C4v := C3v - (C3v - B3 - 10) / 2 with hC4
  rw [resolve_mk_stick1 A2 B4 C4v o1 o2 o3
    (by rw [hB4, hB3, hC3, hB2, hA2, hY3, hY2]; linarith)]
  set A5 := A2 + (B4 - A2 - 10) / 2 with hA5
  set B5 := B4 - (B4 - A2 - 10) / 2 with hB5
  rw [resolve_mk_stick0 A5 B5 C4v o1 o2 o3
    (by rw [hA5, hB4, hB3, hC3, hB2, hA2, hY3, hY2]; linarith)]
  have hb : B5 = 20 + (5 * (e0 + e1) / 8 + e2 / 4) := by
    rw [hB5, hB4, hB3, hC3, hB2, hA2, hY3, hY2]
    ring
  have hc : C4v = 30 + (5 * (e0 + e1) / 8 + e2 / 4) + ((e0 + e1) / 8 + e2 / 4) := by
    rw [hC4, hC3, hB3, hB2, hY3, hY2]
    ring
  rw [hb, hc]

theorem relaxIter_succ_eq (sticks : List Stick) (n : ℕ) (pts : List Point) :
    relaxIter sticks (n + 1) pts = relaxIter sticks n (relaxOnce sticks pts) := rfl

/-- Iterating the pass contracts the error sum geometrically with ratio 3/4:
after a pass the first error is zero, and the remaining error sum obeys the
affine map of `relaxOnce_mk`. -/
theorem relaxIter_mk (n : ℕ) : ∀ e1 e2 o1 o2 o3 : ℝ, |e1| + |e2| ≤ 1 / 2 →
    ∃ f1 f2 : ℝ,
      relaxIter ropeSticks n (mkPts 10 (20 + e1) (30 + e1 + e2) o1 o2 o3) =
          mkPts 10 (20 + f1) (30 + f1 + f2) o1 o2 o3 ∧
        |f1| + |f2| ≤ (3 / 4 : ℝ) ^ n * (|e1| + |e2|) := by
  induction n with
  | zero =>
    intro e1 e2 o1 o2 o3 h
    exact ⟨e1, e2, rfl, by norm_num⟩
  | succ n ih =>
    intro e1 e2 o1 o2 o3 h
    have hn1 : (0 : ℝ) ≤ |e1| := abs_nonneg e1
    have hn2 : (0 : ℝ) ≤ |e2| := abs_nonneg e2
    have hpass := relaxOnce_mk 0 e1 e2 o1 o2 o3 (by norm_num)
      (by linarith) (by linarith)
    have harg : mkPts 10 (20 + e1) (30 + e1 + e2) o1 o2 o3 =
        mkPts (10 + 0) (20 + 0 + e1) (30 + 0 + e1 + e2) o1 o2 o3 := by norm_num
    have he1a := neg_abs_le e1
    have he1b := le_abs_self e1
    have he2a := neg_abs_le e2
    have he2b := le_abs_self e2
    have hg1 : |5 * (0 + e1) / 8 + e2 / 4| ≤ 5 * |e1| / 8 + |e2| / 4 :=
      abs_le.mpr ⟨by linarith, by linarith⟩
    have hg2 : |(0 + e1) / 8 + e2 / 4| ≤ |e1| / 8 + |e2| / 4 :=
      abs_le.mpr ⟨by linarith, by linarith⟩
    obtain ⟨f1, f2, hEq, hBd⟩ := ih (5 * (0 + e1) / 8 + e2 / 4) ((0 + e1) / 8 + e2 / 4)
      o1 o2 o3 (by linarith)
    refine ⟨f1, f2, ?_, ?_⟩
    · rw [relaxIter_succ_eq, harg, hpass]
      exact hEq
    · calc |f1| + |f2| ≤
          (3 / 4 : ℝ) ^ n * (|5 * (0 + e1) / 8 + e2 / 4| + |(0 + e1) / 8 + e2 / 4|) := hBd
        _ ≤ (3 / 4 : ℝ) ^ n * (3 / 4 * (|e1| + |e2|)) := by
            apply mul_le_mul_of_nonneg_left ?_ (by positivity)
            linarith
        _ = (3 / 4 : ℝ) ^ (n + 1) * (|e1| + |e2|) := by ring

/-- Evaluation of `createRope 0 0 4 10`: its point list. -/
theorem createRope_demo_points :
    (createRope 0 0 4 10).points =
      [⟨0, 0, 0, 0, true⟩, ⟨0, 10, 0, 10, false⟩, ⟨0, 20, 0, 20, false⟩,
        ⟨0, 30, 0, 30, false⟩] := by
  unfold createRope
  dsimp only
  rw [show List.range 4 = [0, 1, 2, 3] from rfl]
  simp only [List.map_cons, List.map_nil, List.cons.injEq, Point.mk.injEq]
  norm_num

/-- Evaluation of `createRope 0 0 4 10`: its stick list. -/
theorem createRope_demo_sticks : (createRope 0 0 4 10).sticks = ropeSticks := by
  unfold createRope
  dsimp only
  rw [show List.range 3 = [0, 1, 2] from rfl]
  rfl

/-- Integrating the freshly created demo rope in a large box: every unpinned
point keeps `x = 0`, drops by exactly the gravity increment `1/2`, and records
its previous height. -/
theorem integrate_demo :
    integrate
        [⟨0, 0, 0, 0, true⟩, ⟨0, 10, 0, 10, false⟩, ⟨0, 20, 0, 20, false⟩,
          ⟨0, 30, 0, 30, false⟩] 1000 1000 0 =
      mkPts (21 / 2) (41 / 2) (61 / 2) 10 20 30 := by
  unfold integrate
  rw [show ([⟨0, 0, 0, 0, true⟩, ⟨0, 10, 0, 10, false⟩, ⟨0, 20, 0, 20, false⟩,
        ⟨0, 30, 0, 30, false⟩] : List Point).length = 4 from rfl,
    show List.range 4 = [0, 1, 2, 3] from rfl]
  simp only [List.map_cons, List.map_nil]
  unfold integratePoint verletStep floorCollide wallCollide
  norm_num [FRICTION, GRAVITY, mkPts, Point.mk.injEq, List.getD_cons_zero,
    List.getD_cons_succ]

set_option maxRecDepth 4000 in
/-- C3: `createRope(startX, startY, n, L)` with positive `n` and `L` builds
`n` points stacked vertically at spacing `L` (previous position equal to
current, exactly point 0 pinned), `n - 1` sticks joining consecutive points
with length `L`, and iteration count 600.  Concretely, `createRope 0 0 4 10`
yields 4 points at `y = 0, 10, 20, 30` with point 0 pinned and 3 constraints
of length 10; one `updatePhysics` call in a large box (gravity constant 1/2,
no collision) moves point 3's `y` by exactly the gravity increment `1/2`
before relaxation, and after the 600 relaxation iterations every consecutive
point distance is within `1/100` of 10. -/
theorem c3_createRope_scenario (startX startY : ℝ) (n : ℕ) (L : ℝ)
    (hn : 1 ≤ n) (hL : 0 < L) :
    ((createRope startX startY n L).points.length = n
      ∧ (∀ i, i < n → (createRope startX startY n L).points.getD i default =
          ⟨startX, startY + (i : ℝ) * L, startX, startY + (i : ℝ) * L, i == 0⟩)
      ∧ (createRope startX startY n L).sticks.length = n - 1
      ∧ (∀ i, i < n - 1 →
          (createRope startX startY n L).sticks.getD i default = ⟨i, i + 1, L⟩)
      ∧ (createRope startX startY n L).iterations = 600)
    ∧ GRAVITY = 1 / 2
    ∧ (createRope 0 0 4 10).points =
        [⟨0, 0, 0, 0, true⟩, ⟨0, 10, 0, 10, false⟩, ⟨0, 20, 0, 20, false⟩,
          ⟨0, 30, 0, 30, false⟩]
    ∧ ((integrate (createRope 0 0 4 10).points 1000 1000 0).getD 3 default).y = 30 + 1 / 2
    ∧ (∀ k, k < 3 →
        |hypot
            (((updatePhysics (createRope 0 0 4 10) 1000 1000 0).points.getD (k + 1)
                default).x -
              ((updatePhysics (createRope 0 0 4 10) 1000 1000 0).points.getD k default).x)
            (((updatePhysics (createRope 0 0 4 10) 1000 1000 0).points.getD (k + 1)
                default).y -
              ((updatePhysics (createRope 0 0 4 10) 1000 1000 0).points.getD k default).y) -
          10| ≤ 1 / 100) := by
  refine ⟨⟨length_range_map _ _, fun i hi => ?_, length_range_map _ _, fun i hi => ?_,
    rfl⟩, by norm_num [GRAVITY], createRope_demo_points, ?_, ?_⟩
  · unfold createRope
    dsimp only
    rw [getD_range_map _ _ _ _ hi]
  · unfold createRope
    dsimp only
    rw [getD_range_map _ _ _ _ hi]
  · rw [createRope_demo_points, integrate_demo]
    norm_num [mkPts, List.getD_cons_zero, List.getD_cons_succ]
  · have hpts : (updatePhysics (createRope 0 0 4 10) 1000 1000 0).points =
        relaxIter ropeSticks 600 (mkPts (21 / 2) (41 / 2) (61 / 2) 10 20 30) := by
      show relaxIter (createRope 0 0 4 10).sticks (createRope 0 0 4 10).iterations
          (integrate (createRope 0 0 4 10).points 1000 1000 0) = _
      rw [createRope_demo_sticks, createRope_demo_points, integrate_demo,
        show (createRope 0 0 4 10).iterations = 600 from rfl]
    have hfirst := relaxOnce_mk (1 / 2) 0 0 10 20 30
      (by rw [abs_of_nonneg (by norm_num : (0 : ℝ) ≤ 1 / 2)]; norm_num)
      (by rw [abs_zero]; norm_num) (by rw [abs_zero]; norm_num)
    have harg : mkPts ((21 : ℝ) / 2) (41 / 2) (61 / 2) 10 20 30 =
        mkPts (10 + 1 / 2) (20 + 1 / 2 + 0) (30 + 1 / 2 + 0 + 0) 10 20 30 := by norm_num
    have habs : |5 * ((1 : ℝ) / 2 + 0) / 8 + 0 / 4| + |((1 : ℝ) / 2 + 0) / 8 + 0 / 4| =
        3 / 8 := by
      rw [abs_of_nonneg (by norm_num : (0 : ℝ) ≤ 5 * ((1 : ℝ) / 2 + 0) / 8 + 0 / 4),
        abs_of_nonneg (by norm_num : (0 : ℝ) ≤ ((1 : ℝ) / 2 + 0) / 8 + 0 / 4)]
      norm_num
    obtain ⟨f1, f2, hEq, hBd⟩ := relaxIter_mk 599 (5 * (1 / 2 + 0) / 8 + 0 / 4)
      ((1 / 2 + 0) / 8 + 0 / 4) 10 20 30 (by rw [habs]; norm_num)
    have hfinal : (updatePhysics (createRope 0 0 4 10) 1000 1000 0).points =
        mkPts 10 (20 + f1) (30 + f1 + f2) 10 20 30 := by
      rw [hpts, show (600 : ℕ) = 599 + 1 from rfl, relaxIter_succ_eq, harg, hfirst]
      exact hEq
    have hsmall : |f1| + |f2| ≤ 1 / 100 := by
      have hpow : ((3 : ℝ) / 4) ^ 599 ≤ (3 / 4) ^ 20 :=
        pow_le_pow_of_le_one (by norm_num) (by norm_num) (by norm_num)
      calc |f1| + |f2| ≤ (3 / 4 : ℝ) ^ 599 *
            (|5 * (1 / 2 + 0) / 8 + 0 / 4| + |(1 / 2 + 0) / 8 + 0 / 4|) := hBd
        _ = (3 / 4 : ℝ) ^ 599 * (3 / 8) := by rw [habs]
        _ ≤ (3 / 4 : ℝ) ^ 20 * (3 / 8) := by
            exact mul_le_mul_of_nonneg_right hpow (by norm_num)
        _ ≤ 1 / 100 := by norm_num
    have hf1 : |f1| ≤ 1 / 100 := by
      have := abs_nonneg f2
      linarith
    have hf2 : |f2| ≤ 1 / 100 := by
      have := abs_nonneg f1
      linarith
    have hf1b := abs_le.mp hf1
    have hf2b := abs_le.mp hf2
    intro k hk
    rw [hfinal]
    interval_cases k
    · simp only [mkPts, List.getD_cons_zero, List.getD_cons_succ, hypot]
      rw [show ((0 : ℝ) - 0) * (0 - 0) + (10 - 0) * (10 - 0) = 10 * 10 by ring,
        Real.sqrt_mul_self (by norm_num : (0 : ℝ) ≤ 10)]
      norm_num
    · simp only [mkPts, List.getD_cons_zero, List.getD_cons_succ, hypot]
      rw [show ((0 : ℝ) - 0) * (0 - 0) + (20 + f1 - 10) * (20 + f1 - 10) =
          (10 + f1) * (10 + f1) by ring,
        Real.sqrt_mul_self (by linarith : (0 : ℝ) ≤ 10 + f1),
        show (10 : ℝ) + f1 - 10 = f1 by ring]
      exact hf1
    · simp only [mkPts, List.getD_cons_zero, List.getD_cons_succ, hypot]
      rw [show ((0 : ℝ) - 0) * (0 - 0) + (30 + f1 + f2 - (20 + f1)) *
            (30 + f1 + f2 - (20 + f1)) = (10 + f2) * (10 + f2) by ring,
        Real.sqrt_mul_self (by linarith : (0 : ℝ) ≤ 10 + f2),
        show (10 : ℝ) + f2 - 10 = f2 by ring]
      exact hf2

theorem c3_witness : (createRope 0 0 4 10).points.length = 4 :=
  (c3_createRope_scenario 0 0 4 10 (by norm_num) (by norm_num)).1.1
